import Mathlib

/-!
Verification of the NetSec scan-job orchestration and real-time
synchronization engine against its natural-language specification.

The repository splits into a frontend (React client: `useSocket.ts`,
`Dashboard.tsx`, `services/api.ts`), a database schema (`db/init.sql`)
and a Socket.IO server (`server.ts`).  The pure state-manipulating
parts of that code are embedded below as Lean functions; the backend
orchestrator, playbook scheduler and diff engine exist in the
repository only through their HTTP callers, so those components are
modelled from the specification (each such definition carries a
`Modelled from the spec:` doc comment).
-/

namespace NetSec

/-! ## Client subscription state — `frontend/src/hooks/useSocket.ts`

`useSocket` keeps a `subscribedJobsRef : Set<string>` of job ids plus a
connected flag.  The Lean embedding keeps the set as an insertion-ordered
duplicate-free list (a faithful model of a JS `Set`), and records the
control messages (`subscribe` / `unsubscribe`) emitted to the server. -/

/-- A control message sent by the client over the socket. -/
inductive ClientMsg where
  | subscribe (jobId : String)
  | unsubscribe (jobId : String)
deriving DecidableEq

/-- The state held by the `useSocket` hook: the remembered subscription
set and the connection flag. -/
structure SocketClient where
  subscribedJobs : List String
  isConnected : Bool
deriving DecidableEq

/-- The `subscribeToJob` callback from `useSocket.ts`: rejects a falsy (empty) job id,
is a no-op when the id is already in the set, otherwise emits a
`subscribe` message when connected (queues silently otherwise) and adds
the id to the set. -/
def subscribeToJob (c : SocketClient) (jobId : String) :
    SocketClient × List ClientMsg :=
  if jobId = "" then (c, [])
  else if jobId ∈ c.subscribedJobs then (c, [])
  else if c.isConnected then
    ({ c with subscribedJobs := c.subscribedJobs ++ [jobId] },
     [ClientMsg.subscribe jobId])
  else
    ({ c with subscribedJobs := c.subscribedJobs ++ [jobId] }, [])

/-- The `unsubscribeFromJob` callback from `useSocket.ts`: rejects a falsy job id, is a
no-op when the id is absent, otherwise emits `unsubscribe` when connected
and removes the id from the set. -/
def unsubscribeFromJob (c : SocketClient) (jobId : String) :
    SocketClient × List ClientMsg :=
  if jobId = "" then (c, [])
  else if jobId ∈ c.subscribedJobs then
    (if c.isConnected then
      ({ c with subscribedJobs := c.subscribedJobs.erase jobId },
       [ClientMsg.unsubscribe jobId])
    else
      ({ c with subscribedJobs := c.subscribedJobs.erase jobId }, []))
  else (c, [])

/-- The `handleConnect` callback from `useSocket.ts`: on (re)connection, mark the
socket connected and re-emit a `subscribe` message for every job id in
the remembered set (the code guards on a non-empty set before looping,
which emits the same messages). -/
def handleConnect (c : SocketClient) : SocketClient × List ClientMsg :=
  ({ c with isConnected := true },
   if c.subscribedJobs.isEmpty then []
   else c.subscribedJobs.map ClientMsg.subscribe)

/-- The effect cleanup in `useSocket.ts`: disconnects the socket but
deliberately does not clear `subscribedJobsRef`
("Don't clear subscribedJobsRef here - we want to remember subscriptions"). -/
def cleanupSocket (c : SocketClient) : SocketClient :=
  { c with isConnected := false }

/-! ## Event bus (server side)

The Socket.IO server present in the repository (`server.ts`) only
implements the global broadcast channel; the per-job subscription
registry that answers the client's `subscribe` / `unsubscribe` messages
is backend code not included in the sources, so it is modelled from the
specification. -/

/-- A server-side connection: its id and its per-connection subscription
set of job ids. -/
structure Conn where
  cid : Nat
  subs : List String
deriving DecidableEq

/-- Modelled from the spec: the Event Bus state — the per-connection
subscription registry (the backend Socket.IO server holding one
subscription set per connected viewer is not in the sources). -/
structure BusState where
  connections : List Conn
deriving DecidableEq

/-- Modelled from the spec: per-job fan-out — an Orchestrator event for
job `jobId` is delivered to exactly the connections whose subscription
set contains `jobId`. -/
def recipients (bus : BusState) (jobId : String) : List Conn :=
  bus.connections.filter (fun c => c.subs.contains jobId)

/-- Modelled from the spec: the separate global broadcast channel
(cross-cutting notices such as connectivity pings) reaches every
connected viewer. -/
def globalRecipients (bus : BusState) : List Conn :=
  bus.connections

/-- Modelled from the spec: on disconnect the connection's subscription
set is discarded wholesale — the server retains no subscription state
for a disconnected viewer. -/
def disconnectConn (bus : BusState) (cid : Nat) : BusState :=
  ⟨bus.connections.filter (fun c => c.cid ≠ cid)⟩

/-! ## Dashboard scan-update consumer — `frontend/src/pages/Dashboard.tsx`

The `scan_update` effect deduplicates messages by the string
`jobId-status-progress`, tracked in `lastProcessedMessage`, then applies
a functional update to the scan list. -/

/-- A `scan_update` socket message as consumed by the Dashboard. -/
structure ScanMsg where
  job_id : String
  status : String
  progress : Nat
  target : Option String
  profile : Option String
deriving DecidableEq

/-- A scan row of the Dashboard state (the fields the effect touches). -/
structure DashScan where
  id : String
  target : String
  profile : String
  status : String
  progress : Nat
  createdAt : String
  finishedAt : Option String
  kind : String
deriving DecidableEq

/-- The Dashboard state manipulated by the effect: the last processed
message id and the scan list. -/
structure DashState where
  lastProcessed : String
  scans : List DashScan
deriving DecidableEq

/-- The dedup key built in `Dashboard.tsx`:
a unique identifier without timestamp, jobId-status-progress. -/
def messageId (m : ScanMsg) : String :=
  m.job_id ++ "-" ++ m.status ++ "-" ++ toString m.progress

/-- The new scan row added when an update arrives for an unknown job id
(`now` abstracts `new Date().toISOString()`). -/
def newScanOfMsg (now : String) (m : ScanMsg) : DashScan :=
  { id := m.job_id
    target := m.target.getD "Unknown target"
    profile := m.profile.getD "default"
    status := m.status
    progress := m.progress
    createdAt := now
    finishedAt :=
      if m.status = "finished" ∨ m.status = "failed" then some now else none
    kind := if m.profile = some "web" then "web" else "network" }

/-- The per-row update applied to an existing scan list entry. -/
def updateScanRow (now : String) (m : ScanMsg) (s : DashScan) : DashScan :=
  if s.id = m.job_id then
    { s with
      status := m.status
      progress := m.progress
      finishedAt :=
        if m.status = "finished" ∨ m.status = "failed" then
          (match s.finishedAt with
           | some t => some t
           | none => some now)
        else s.finishedAt }
  else s

/-- The `scan_update` effect from `Dashboard.tsx`: skip when the dedup
key equals the last processed one; otherwise record the key, validate
the job id, and either prepend a new scan row or update the existing
one. -/
def processScanUpdate (now : String) (st : DashState) (m : ScanMsg) :
    DashState :=
  if st.lastProcessed = messageId m then st
  else
    let st1 : DashState := { st with lastProcessed := messageId m }
    if m.job_id = "" then st1
    else if st.scans.any (fun s => s.id = m.job_id) then
      { st1 with scans := st.scans.map (updateScanRow now m) }
    else
      { st1 with scans := newScanOfMsg now m :: st.scans }

/-! ## Job Orchestrator

The backend orchestrator (job lifecycle state machine behind the
`/scans/...` endpoints called by `services/api.ts`) is not part of the
sources; it is modelled from §4.1 of the specification. -/

/-- The closed scan-kind enumeration (`scantype` in `db/init.sql`). -/
inductive ScanType where
  | network_scan
  | service_enumeration
  | vulnerability_assessment
  | credential_testing
  | web_scan
  | ssl_analysis
  | combined
deriving DecidableEq

/-- Job status; `db/init.sql` has queued/running/finished/failed and the
spec allows cancelled as a fifth explicit value, which we adopt. -/
inductive JobStatus where
  | queued
  | running
  | finished
  | failed
  | cancelled
deriving DecidableEq

/-- Terminal statuses: finished, failed, cancelled (spec glossary). -/
def isTerminal : JobStatus → Bool
  | .finished => true
  | .failed => true
  | .cancelled => true
  | _ => false

/-- A vulnerability finding (`vulnerabilities` table): optional CVE id,
title, port, protocol, severity. -/
structure Finding where
  cveId : Option String
  title : String
  port : Nat
  protocol : String
  severity : String
deriving DecidableEq

/-- A scan job record (`scan_jobs` table), timestamps abstracted as
naturals and JSON payloads as strings. -/
structure Job where
  id : Nat
  target : String
  scanKind : ScanType
  profile : String
  status : JobStatus
  progress : Nat
  createdAt : Nat
  updatedAt : Nat
  finishedAt : Option Nat
  log : String
  error : Option String
  insights : Option String
  vulns : List Finding
  config : String
  parentScanId : Option Nat
deriving DecidableEq

/-- The Job Store: the list of persisted jobs, in creation order; a new
job's id is its insertion index. -/
abbrev Store := List Job

/-- The error taxonomy of §7. -/
inductive OrchError where
  | InvalidRequest
  | InvalidTransition
  | NotFound
  | NotComparable
deriving DecidableEq

/-- Point query for a job by id. -/
def getJob (st : Store) (i : Nat) : Option Job :=
  st.find? (fun j => j.id = i)

/-- Update the first job matching `p` (ids are unique in reachable
stores, and `getJob` itself returns the first match). -/
def updateFirst (p : Job → Bool) (f : Job → Job) : List Job → List Job
  | [] => []
  | j :: rest => if p j then f j :: rest else j :: updateFirst p f rest

/-- Parsing of scan kinds: recognizes exactly the closed `scantype` enumeration. -/
def parseScanType (s : String) : Option ScanType :=
  if s = "network_scan" then some .network_scan
  else if s = "service_enumeration" then some .service_enumeration
  else if s = "vulnerability_assessment" then some .vulnerability_assessment
  else if s = "credential_testing" then some .credential_testing
  else if s = "web_scan" then some .web_scan
  else if s = "ssl_analysis" then some .ssl_analysis
  else if s = "combined" then some .combined
  else none

/-- Modelled from the spec: `create(target, profile, scanKind, config)`
(§4.1) — validates that the target is non-empty and the scan kind is
recognized, failing with `InvalidRequest` and persisting nothing
otherwise; on success persists a new job in `queued` with progress 0 and
no finished timestamp, and returns it (the backend create endpoint is
not in the sources). -/
def create (st : Store) (now : Nat) (target profile kindStr config : String) :
    Except OrchError (Store × Job) :=
  if target = "" then .error .InvalidRequest
  else
    match parseScanType kindStr with
    | none => .error .InvalidRequest
    | some k =>
      let job : Job :=
        { id := st.length
          target := target
          scanKind := k
          profile := profile
          status := .queued
          progress := 0
          createdAt := now
          updatedAt := now
          finishedAt := none
          log := ""
          error := none
          insights := none
          vulns := []
          config := config
          parentScanId := none }
      .ok (st ++ [job], job)

/-- Modelled from the spec: `reportProgress(jobId, progress, logLine?)`
(§4.1) — unknown job fails `NotFound`; a call on a terminal job is
silently dropped (§4.1 ordering policy); a call while `queued` first
moves the job to `running`; progress outside [0,100] or below the
current value is rejected with `InvalidTransition`; an accepted call
stores the new progress, appends the log line and stamps `updated_at`
(the backend progress endpoint is not in the sources). -/
def reportProgress (st : Store) (now jobId progress : Nat)
    (logLine : Option String) : Except OrchError Store :=
  match getJob st jobId with
  | none => .error .NotFound
  | some j =>
    if isTerminal j.status then .ok st
    else if progress > 100 ∨ progress < j.progress then
      .error .InvalidTransition
    else
      .ok (updateFirst (fun x => x.id = jobId)
        (fun x =>
          { x with
            status := .running
            progress := progress
            updatedAt := now
            log := x.log ++ (logLine.getD "") }) st)

/-- The two completion outcomes of §4.1. -/
inductive Outcome where
  | finishedWith (insights : String) (vulns : List Finding)
  | failedWith (err : String)
deriving DecidableEq

/-- Whether an outcome is the success outcome. -/
def Outcome.isSuccess : Outcome → Bool
  | .finishedWith _ _ => true
  | .failedWith _ => false

/-- Modelled from the spec: `complete(jobId, outcome)` (§4.1) — a second
completion of a terminal job is a no-op; completion is valid from
`running`, and from `queued` only for an immediate failure; it sets
progress to 100, stamps `finished_at`, and stores the payload verbatim
(the backend completion path is not in the sources). -/
def complete (st : Store) (now jobId : Nat) (outcome : Outcome) :
    Except OrchError Store :=
  match getJob st jobId with
  | none => .error .NotFound
  | some j =>
    if isTerminal j.status then .ok st
    else if j.status = .queued ∧ outcome.isSuccess then
      .error .InvalidTransition
    else
      .ok (updateFirst (fun x => x.id = jobId)
        (fun x =>
          match outcome with
          | .finishedWith ins vs =>
            { x with status := .finished, progress := 100,
                     updatedAt := now, finishedAt := some now,
                     insights := some ins, vulns := vs }
          | .failedWith e =>
            { x with status := .failed, progress := 100,
                     updatedAt := now, finishedAt := some now,
                     error := some e }) st)

/-- Modelled from the spec: `cancel(jobId)` (§4.1, §8) — valid only
while `queued` or `running` (an already-terminal job yields an error and
no mutation); transitions to the cancelled terminal state with a
distinguishing error code and stamps `finished_at` (the backend cancel
endpoint is not in the sources). -/
def cancel (st : Store) (now jobId : Nat) : Except OrchError Store :=
  match getJob st jobId with
  | none => .error .NotFound
  | some j =>
    if isTerminal j.status then .error .InvalidTransition
    else
      .ok (updateFirst (fun x => x.id = jobId)
        (fun x =>
          { x with status := .cancelled, updatedAt := now,
                   finishedAt := some now, error := some "cancelled" }) st)

/-- Modelled from the spec: `retry(jobId)` (§4.1) — valid only when the
source job is terminal (retrying a running or queued job fails with
`InvalidTransition`); copies target/profile/scanKind/config into a brand
new `queued` job whose `parent_scan_id` is the source id, and does not
alter the original (the backend retry endpoint called by
`apiService.retryScan` is not in the sources). -/
def retry (st : Store) (now jobId : Nat) : Except OrchError (Store × Job) :=
  match getJob st jobId with
  | none => .error .NotFound
  | some j =>
    if isTerminal j.status then
      let job : Job :=
        { id := st.length
          target := j.target
          scanKind := j.scanKind
          profile := j.profile
          status := .queued
          progress := 0
          createdAt := now
          updatedAt := now
          finishedAt := none
          log := ""
          error := none
          insights := none
          vulns := []
          config := j.config
          parentScanId := some jobId }
      .ok (st ++ [job], job)
    else .error .InvalidTransition

/-- One orchestrator operation with its arguments. -/
inductive OrchOp where
  | opCreate (now : Nat) (target profile kindStr config : String)
  | opReport (now jobId progress : Nat) (logLine : Option String)
  | opComplete (now jobId : Nat) (outcome : Outcome)
  | opCancel (now jobId : Nat)
  | opRetry (now jobId : Nat)

/-- Apply one operation to the store. -/
def applyOp (st : Store) : OrchOp → Except OrchError Store
  | .opCreate now t p k c => (create st now t p k c).map Prod.fst
  | .opReport now i pr l => reportProgress st now i pr l
  | .opComplete now i o => complete st now i o
  | .opCancel now i => cancel st now i
  | .opRetry now i => (retry st now i).map Prod.fst

/-- Run a sequence of operations from a store; a failed operation leaves
the store unchanged (§7: errors are reported synchronously, no state
mutated). -/
def applyOps (st : Store) : List OrchOp → Store
  | [] => st
  | op :: rest =>
    applyOps (match applyOp st op with | .ok st1 => st1 | .error _ => st) rest

/-- A store is reachable when some operation sequence produces it from
the empty store. -/
def Reachable (st : Store) : Prop :=
  ∃ ops : List OrchOp, applyOps [] ops = st

/-- The list-jobs query of §6. -/
def listJobs (st : Store) : List Job := st

/-! ## Playbook Scheduler

The `/automation/run-due` endpoint called by
`apiService.runDuePlaybooks` is backend code not in the sources; the
scheduler tick is modelled from §4.3 of the specification. -/

/-- A recurring scan definition (`Playbook` in §3), timestamps in
minutes. -/
structure Playbook where
  id : Nat
  target : String
  profile : String
  intervalMinutes : Nat
  enabled : Bool
  lastRun : Nat
deriving DecidableEq

/-- How overdue a playbook is at time `now` (0 when not yet due). -/
def overdueBy (now : Nat) (p : Playbook) : Nat :=
  now - (p.lastRun + p.intervalMinutes)

/-- A playbook is due when enabled and `last_run + interval ≤ now`. -/
def isDue (now : Nat) (p : Playbook) : Bool :=
  p.enabled && p.lastRun + p.intervalMinutes ≤ now

/-- Insert a playbook into a list sorted by decreasing overdue time
(stable: equal keys keep the existing order first). -/
def insertByOverdue (now : Nat) (p : Playbook) :
    List Playbook → List Playbook
  | [] => [p]
  | q :: qs =>
    if overdueBy now q < overdueBy now p then p :: q :: qs
    else q :: insertByOverdue now p qs

/-- Sort playbooks most-overdue first (insertion sort). -/
def sortByOverdue (now : Nat) (l : List Playbook) : List Playbook :=
  l.foldr (insertByOverdue now) []

/-- Modelled from the spec: the per-playbook loop of a scheduler tick
(§4.3) — create a job for each chosen playbook with its target/profile,
and collect the ids of the playbooks whose job creation succeeded (only
those get `last_run` advanced); a failed creation leaves the store
untouched for a later retry. -/
def runChosen (now : Nat) :
    List Playbook → Store → (List Nat × Store × List (Nat × Nat))
  | [], st => ([], st, [])
  | p :: rest, st =>
    match create st now p.target p.profile "combined" "" with
    | .ok (st1, job) =>
      let r := runChosen now rest st1
      (p.id :: r.1, r.2.1, (p.id, job.id) :: r.2.2)
    | .error _ => runChosen now rest st

/-- The result of one scheduler tick. -/
structure TickResult where
  playbooks : List Playbook
  store : Store
  created : List (Nat × Nat)
deriving DecidableEq

/-- Modelled from the spec: the run-due scheduler tick (§4.3) — select
due playbooks, order them most-overdue first, take up to `limit`, create
a job for each, and set `last_run := now` only for the playbooks whose
job creation succeeded (the backend run-due endpoint is not in the
sources). -/
def runDuePlaybooks (now limit : Nat) (pbs : List Playbook) (st : Store) :
    TickResult :=
  let chosen := (sortByOverdue now (pbs.filter (isDue now))).take limit
  let r := runChosen now chosen st
  { playbooks :=
      pbs.map (fun p =>
        if p.id ∈ r.1 then { p with lastRun := now } else p)
    store := r.2.1
    created := r.2.2 }

/-! ## Diff Engine

The `/automation/reports/diff` endpoint called by
`apiService.createDiffReport` is backend code not in the sources; the
diff algorithm is modelled from §4.4 of the specification. -/

/-- Modelled from the spec: the stable identity of a finding — the CVE
id when present, else a composite of title, port and protocol (§4.4). -/
def findingKey (f : Finding) : String :=
  match f.cveId with
  | some c => "cve:" ++ c
  | none => "t:" ++ f.title ++ ":" ++ toString f.port ++ ":" ++ f.protocol

/-- A structured diff report (§3 DiffReport). -/
structure DiffReport where
  added : List Finding
  removed : List Finding
  changed : List (Finding × Finding)
  unchangedCount : Nat
deriving DecidableEq

/-- Modelled from the spec: the diff partition (§4.4) — key findings by
stable identity; `added` are present only in the new set, `removed` only
in the old set, `changed` are present in both with differing severity
(recording the old and new finding, hence old→new severity), and
findings present in both unchanged are omitted from the body and only
counted. -/
def diffFindings (olds news : List Finding) : DiffReport :=
  { added :=
      news.filter (fun n => !(olds.any (fun o => findingKey o = findingKey n)))
    removed :=
      olds.filter (fun o => !(news.any (fun n => findingKey n = findingKey o)))
    changed :=
      olds.filterMap (fun o =>
        match news.find? (fun n => findingKey n = findingKey o) with
        | some n => if o.severity ≠ n.severity then some (o, n) else none
        | none => none)
    unchangedCount :=
      (olds.filterMap (fun o =>
        match news.find? (fun n => findingKey n = findingKey o) with
        | some n => if o.severity = n.severity then some (o, n) else none
        | none => none)).length }

/-- Modelled from the spec: `createDiffReport(oldJobId, newJobId)`
(§4.4) — `NotFound` when either job is missing, `NotComparable` when the
jobs target different assets or either is not in the terminal successful
state, else the partition of the two vulnerability sets. -/
def createDiffReport (st : Store) (oldId newId : Nat) :
    Except OrchError DiffReport :=
  match getJob st oldId, getJob st newId with
  | some o, some n =>
    if o.target ≠ n.target then .error .NotComparable
    else if o.status ≠ .finished ∨ n.status ≠ .finished then
      .error .NotComparable
    else .ok (diffFindings o.vulns n.vulns)
  | _, _ => .error .NotFound

/-! ## `event:update` handler — `server.ts`

The Socket.IO server persists each incoming `event:update` into the
`real_time_events` table and broadcasts `event:notify` to all clients;
a database failure is caught and logged, with no broadcast and no error
reply to the sender. -/

/-- A row of the `real_time_events` table / an `event:update` payload. -/
structure EventRecord where
  userId : String
  eventType : String
  eventData : String
deriving DecidableEq

/-- The server state the handler touches: the persisted events. -/
structure ServerState where
  real_time_events : List EventRecord
deriving DecidableEq

/-- Everything a client can observe from one handler run: the resulting
state, the `event:notify` broadcasts, and any error replies sent back to
the sending client. -/
structure HandlerEffect where
  state : ServerState
  broadcasts : List EventRecord
  repliesToSender : List String
deriving DecidableEq

/-- The `event:update` handler from `server.ts`: try to insert the event
into `real_time_events`; on success broadcast `event:notify` to all
clients; on a database error (modelled by the `insertFails` flag) catch
it, log it, and send nothing — no broadcast and no reply to the sender
in either case beyond the broadcast itself. -/
def handleEventUpdate (insertFails : Bool) (st : ServerState)
    (e : EventRecord) : HandlerEffect :=
  if insertFails then
    { state := st, broadcasts := [], repliesToSender := [] }
  else
    { state := ⟨st.real_time_events ++ [e]⟩
      broadcasts := [e]
      repliesToSender := [] }

/-! ## Concrete instances used by examples and witnesses -/

/-- A store holding one freshly created job. -/
def stC3a : Store :=
  applyOps [] [.opCreate 1 "host1" "default" "combined" ""]

/-- The same store after an accepted progress report to 50. -/
def stC3b : Store :=
  applyOps []
    [.opCreate 1 "host1" "default" "combined" "",
     .opReport 2 0 50 (some "l1")]

/-- The job of `stC3a`. -/
def jobC3a : Job :=
  { id := 0, target := "host1", scanKind := .combined, profile := "default"
    status := .queued, progress := 0, createdAt := 1, updatedAt := 1
    finishedAt := none, log := "", error := none, insights := none
    vulns := [], config := "", parentScanId := none }

/-- The job of `stC3b`. -/
def jobC3b : Job :=
  { jobC3a with status := .running, progress := 50, updatedAt := 2,
                log := "l1" }

/-- A store holding one failed job, the retry source. -/
def stC6 : Store :=
  applyOps []
    [.opCreate 1 "host2" "default" "web_scan" "cfg",
     .opComplete 2 0 (.failedWith "boom")]

/-- The failed source job of `stC6`. -/
def srcC6 : Job :=
  { id := 0, target := "host2", scanKind := .web_scan, profile := "default"
    status := .failed, progress := 100, createdAt := 1, updatedAt := 2
    finishedAt := some 2, log := "", error := some "boom", insights := none
    vulns := [], config := "cfg", parentScanId := none }

/-- The job that `retry` creates from `srcC6` at time 5. -/
def jobC6 : Job :=
  { id := 1, target := "host2", scanKind := .web_scan, profile := "default"
    status := .queued, progress := 0, createdAt := 5, updatedAt := 5
    finishedAt := none, log := "", error := none, insights := none
    vulns := [], config := "cfg", parentScanId := some 0 }

/-- Playbook overdue by 5 minutes at time 1000: due at 995. -/
def pbA : Playbook :=
  { id := 1, target := "tA", profile := "default", intervalMinutes := 10,
    enabled := true, lastRun := 985 }

/-- Playbook overdue by 60 minutes at time 1000: due at 940. -/
def pbB : Playbook :=
  { id := 2, target := "tB", profile := "default", intervalMinutes := 10,
    enabled := true, lastRun := 930 }

/-- Playbook overdue by 120 minutes at time 1000: due at 880. -/
def pbC : Playbook :=
  { id := 3, target := "tC", profile := "default", intervalMinutes := 10,
    enabled := true, lastRun := 870 }

/-- A playbook with an empty target, whose job creation always fails. -/
def pbBad : Playbook :=
  { id := 7, target := "", profile := "default", intervalMinutes := 1,
    enabled := true, lastRun := 0 }

/-- Finding X in the old job, severity high. -/
def fXold : Finding :=
  { cveId := some "CVE-1", title := "X", port := 0, protocol := "tcp",
    severity := "high" }

/-- Finding X in the new job, severity critical (same stable identity). -/
def fXnew : Finding :=
  { cveId := some "CVE-1", title := "X", port := 0, protocol := "tcp",
    severity := "critical" }

/-- Finding Y, only in the old job. -/
def fY : Finding :=
  { cveId := none, title := "Y", port := 80, protocol := "tcp",
    severity := "medium" }

/-- Finding Z, only in the new job. -/
def fZ : Finding :=
  { cveId := none, title := "Z", port := 443, protocol := "tcp",
    severity := "low" }

/-- The old finished job for the diff scenario. -/
def jobC8old : Job :=
  { id := 0, target := "asset1", scanKind := .combined, profile := "default"
    status := .finished, progress := 100, createdAt := 1, updatedAt := 3
    finishedAt := some 3, log := "", error := none, insights := none
    vulns := [fXold, fY], config := "", parentScanId := none }

/-- The new finished job for the diff scenario. -/
def jobC8new : Job :=
  { id := 1, target := "asset1", scanKind := .combined, profile := "default"
    status := .finished, progress := 100, createdAt := 4, updatedAt := 6
    finishedAt := some 6, log := "", error := none, insights := none
    vulns := [fXnew, fZ], config := "", parentScanId := none }

/-- The store holding both diff-scenario jobs. -/
def stC8 : Store := [jobC8old, jobC8new]

/-- The ScanJob invariant of §3: `finished_at` is set exactly on the
terminal statuses. -/
def StoreInv (st : Store) : Prop :=
  ∀ j ∈ st, j.finishedAt.isSome = isTerminal j.status

/-! ## Theorems -/

/-- After processing any `scan_update` message, the recorded dedup key
is the message's key (both when the message was skipped and when it was
applied). -/
theorem processScanUpdate_lastProcessed (now : String) (st : DashState)
    (m : ScanMsg) :
    (processScanUpdate now st m).lastProcessed = messageId m := by
  unfold processScanUpdate
  split
  · next h => exact h
  · split
    · rfl
    · split <;> rfl

/-- A `scan_update` message whose dedup key matches the recorded one is
skipped. -/
theorem processScanUpdate_skip (now : String) (st : DashState)
    (m : ScanMsg) (h : st.lastProcessed = messageId m) :
    processScanUpdate now st m = st := by
  unfold processScanUpdate
  rw [if_pos h]

/-- C2: a viewer receiving the same `(jobId, status, progress)` tuple
twice in immediate succession treats the second as a duplicate: the
Dashboard state (scan list and dedup key) is unchanged by the second
delivery, whatever clock values the two deliveries observe. -/
theorem scanUpdate_duplicate_tuple_is_noop (now1 now2 : String)
    (st : DashState) (m : ScanMsg) :
    processScanUpdate now2 (processScanUpdate now1 st m) m
      = processScanUpdate now1 st m :=
  processScanUpdate_skip now2 (processScanUpdate now1 st m) m
    (processScanUpdate_lastProcessed now1 st m)

/-- C4: the socket cleanup preserves the remembered subscription set;
after a reconnect the client re-emits exactly one `subscribe` message
per remembered job id; and on the server a disconnect discards the
connection's subscription entry entirely. -/
theorem reconnect_resubscribes_remembered_jobs (c : SocketClient)
    (bus : BusState) (cid : Nat) :
    (cleanupSocket c).subscribedJobs = c.subscribedJobs ∧
    (handleConnect (cleanupSocket c)).2
      = c.subscribedJobs.map ClientMsg.subscribe ∧
    ∀ conn ∈ (disconnectConn bus cid).connections, conn.cid ≠ cid := by
  refine ⟨rfl, ?_, ?_⟩
  · show (if c.subscribedJobs.isEmpty then []
      else c.subscribedJobs.map ClientMsg.subscribe)
      = c.subscribedJobs.map ClientMsg.subscribe
    by_cases h : c.subscribedJobs.isEmpty
    · rw [if_pos h, List.isEmpty_iff.mp h]
      rfl
    · rw [if_neg h]
  · intro conn hconn
    have h := List.mem_filter.mp hconn
    simpa using h.2

/-- Witness for C4 at a concrete client and bus. -/
theorem reconnect_resubscribes_remembered_jobs_witness :
    (handleConnect (cleanupSocket ⟨["a", "b"], true⟩)).2
      = [ClientMsg.subscribe "a", ClientMsg.subscribe "b"] ∧
    (⟨2, ["b"]⟩ : Conn).cid ≠ 1 := by
  refine ⟨(reconnect_resubscribes_remembered_jobs ⟨["a", "b"], true⟩
    ⟨[⟨1, ["a"]⟩, ⟨2, ["b"]⟩]⟩ 1).2.1, ?_⟩
  exact (reconnect_resubscribes_remembered_jobs ⟨["a", "b"], true⟩
    ⟨[⟨1, ["a"]⟩, ⟨2, ["b"]⟩]⟩ 1).2.2 ⟨2, ["b"]⟩ (by decide)

/-- C5 counterexample: `subscribeToJob` with the empty-string job id is
rejected by the falsy-id guard, so the id is not added even though it
was absent — the claim's "subscribe(jobId) adds jobId to the set" fails
for every connection at `jobId = ""`. -/
theorem subscribe_empty_jobId_not_added :
    "" ∉ (⟨[], true⟩ : SocketClient).subscribedJobs ∧
    "" ∉ (subscribeToJob ⟨[], true⟩ "").1.subscribedJobs := by
  constructor
  · simp
  · show "" ∉ (if ("" : String) = "" then ((⟨[], true⟩ : SocketClient), ([] : List ClientMsg))
      else _).1.subscribedJobs
    rw [if_pos rfl]
    simp

/-- C5 (amended): for every non-empty job id, `subscribe` appends the id
when absent and is a no-op when present, `unsubscribe` removes the id
when present and is a no-op when absent, and both are idempotent on the
subscription set (the set is duplicate-free, as a JS `Set` is). -/
theorem subscribeToJob_mem_noop (c : SocketClient) (j : String)
    (hj : j ≠ "") (hmem : j ∈ c.subscribedJobs) :
    subscribeToJob c j = (c, []) := by
  unfold subscribeToJob
  rw [if_neg hj, if_pos hmem]

theorem subscribeToJob_set_of_not_mem (c : SocketClient) (j : String)
    (hj : j ≠ "") (habs : j ∉ c.subscribedJobs) :
    (subscribeToJob c j).1.subscribedJobs = c.subscribedJobs ++ [j] := by
  unfold subscribeToJob
  rw [if_neg hj, if_neg habs]
  by_cases hc : c.isConnected
  · rw [if_pos hc]
  · rw [if_neg hc]

theorem unsubscribeFromJob_not_mem_noop (c : SocketClient) (j : String)
    (hj : j ≠ "") (habs : j ∉ c.subscribedJobs) :
    unsubscribeFromJob c j = (c, []) := by
  unfold unsubscribeFromJob
  rw [if_neg hj, if_neg habs]

theorem unsubscribeFromJob_set_of_mem (c : SocketClient) (j : String)
    (hj : j ≠ "") (hmem : j ∈ c.subscribedJobs) :
    (unsubscribeFromJob c j).1.subscribedJobs
      = c.subscribedJobs.erase j := by
  unfold unsubscribeFromJob
  rw [if_neg hj, if_pos hmem]
  by_cases hc : c.isConnected
  · rw [if_pos hc]
  · rw [if_neg hc]

theorem subscribe_unsubscribe_idempotent_nonempty (c : SocketClient)
    (j : String) (hj : j ≠ "") (hnd : c.subscribedJobs.Nodup) :
    (j ∉ c.subscribedJobs →
       (subscribeToJob c j).1.subscribedJobs = c.subscribedJobs ++ [j]) ∧
    (j ∈ c.subscribedJobs → subscribeToJob c j = (c, [])) ∧
    (j ∈ c.subscribedJobs →
       (unsubscribeFromJob c j).1.subscribedJobs
         = c.subscribedJobs.erase j ∧
       j ∉ (unsubscribeFromJob c j).1.subscribedJobs) ∧
    (j ∉ c.subscribedJobs → unsubscribeFromJob c j = (c, [])) ∧
    (subscribeToJob (subscribeToJob c j).1 j).1.subscribedJobs
      = (subscribeToJob c j).1.subscribedJobs ∧
    (unsubscribeFromJob (unsubscribeFromJob c j).1 j).1.subscribedJobs
      = (unsubscribeFromJob c j).1.subscribedJobs := by
  have herase : j ∉ c.subscribedJobs.erase j := hnd.not_mem_erase
  refine ⟨subscribeToJob_set_of_not_mem c j hj,
    subscribeToJob_mem_noop c j hj, ?_,
    unsubscribeFromJob_not_mem_noop c j hj, ?_, ?_⟩
  · intro hmem
    refine ⟨unsubscribeFromJob_set_of_mem c j hj hmem, ?_⟩
    rw [unsubscribeFromJob_set_of_mem c j hj hmem]
    exact herase
  · by_cases habs : j ∈ c.subscribedJobs
    · rw [subscribeToJob_mem_noop c j hj habs,
        subscribeToJob_mem_noop c j hj habs]
    · have hmem1 : j ∈ (subscribeToJob c j).1.subscribedJobs := by
        rw [subscribeToJob_set_of_not_mem c j hj habs]
        simp
      rw [subscribeToJob_mem_noop (subscribeToJob c j).1 j hj hmem1]
  · by_cases hmem : j ∈ c.subscribedJobs
    · have habs1 : j ∉ (unsubscribeFromJob c j).1.subscribedJobs := by
        rw [unsubscribeFromJob_set_of_mem c j hj hmem]
        exact herase
      rw [unsubscribeFromJob_not_mem_noop (unsubscribeFromJob c j).1 j hj
        habs1]
    · rw [unsubscribeFromJob_not_mem_noop c j hj hmem,
        unsubscribeFromJob_not_mem_noop c j hj hmem]

/-- Witness for C5 (amended) at a concrete client and job id. -/
theorem subscribe_unsubscribe_idempotent_nonempty_witness :
    ("job2" : String) ≠ "" ∧
    (subscribeToJob ⟨["job1"], true⟩ "job2").1.subscribedJobs
      = ["job1", "job2"] := by
  refine ⟨by decide, ?_⟩
  exact (subscribe_unsubscribe_idempotent_nonempty ⟨["job1"], true⟩ "job2"
    (by decide) (by decide)).1 (by decide)

/-- C9: creating a job with an empty target fails with `InvalidRequest`,
and no record is persisted — a subsequent `listJobs` shows exactly the
jobs that were there before. -/
theorem create_empty_target_invalidRequest_no_persist (st : Store)
    (now : Nat) (profile kindStr config : String) :
    create st now "" profile kindStr config
      = .error .InvalidRequest ∧
    listJobs (applyOps st [.opCreate now "" profile kindStr config])
      = listJobs st := by
  have hc : create st now "" profile kindStr config
      = .error .InvalidRequest := by
    unfold create
    rw [if_pos rfl]
  refine ⟨hc, ?_⟩
  show listJobs
    (match applyOp st (.opCreate now "" profile kindStr config) with
     | .ok st1 => st1
     | .error _ => st) = listJobs st
  show listJobs
    (match (create st now "" profile kindStr config).map Prod.fst with
     | .ok st1 => st1
     | .error _ => st) = listJobs st
  rw [hc]
  rfl

/-- C1: the Event Bus delivers an event for job `jobId` to exactly the
connections whose subscription set contains `jobId`; when no connected
viewer is subscribed to that job the event reaches nobody; the separate
global broadcast channel reaches every connection. -/
theorem eventBus_delivers_exactly_to_subscribed (bus : BusState)
    (jobId : String) :
    (∀ c, c ∈ recipients bus jobId ↔
       c ∈ bus.connections ∧ jobId ∈ c.subs) ∧
    ((∀ c ∈ bus.connections, jobId ∉ c.subs) →
       recipients bus jobId = []) ∧
    globalRecipients bus = bus.connections := by
  refine ⟨?_, ?_, rfl⟩
  · intro c
    unfold recipients
    rw [List.mem_filter]
    simp
  · intro h
    unfold recipients
    rw [List.filter_eq_nil_iff]
    intro c hc
    simpa using h c hc

/-- Witness for C1 at a concrete bus: viewer 1 is subscribed to job
"j1", viewer 2 is not; an event for "j9" (no subscribers) reaches
nobody. -/
theorem eventBus_delivers_exactly_to_subscribed_witness :
    (⟨1, ["j1"]⟩ ∈ recipients ⟨[⟨1, ["j1"]⟩, ⟨2, ["j2"]⟩]⟩ "j1" ↔
       ⟨1, ["j1"]⟩ ∈ ([⟨1, ["j1"]⟩, ⟨2, ["j2"]⟩] : List Conn) ∧
       "j1" ∈ ["j1"]) ∧
    recipients ⟨[⟨1, ["j1"]⟩, ⟨2, ["j2"]⟩]⟩ "j9" = [] := by
  constructor
  · exact (eventBus_delivers_exactly_to_subscribed
      ⟨[⟨1, ["j1"]⟩, ⟨2, ["j2"]⟩]⟩ "j1").1 ⟨1, ["j1"]⟩
  · exact (eventBus_delivers_exactly_to_subscribed
      ⟨[⟨1, ["j1"]⟩, ⟨2, ["j2"]⟩]⟩ "j9").2.1 (by decide)

/-- C10: the `event:update` handler broadcasts `event:notify` exactly
when the database insert succeeded; on an insert failure the error is
caught: the persisted state is unchanged, no broadcast goes out, and the
sending client never receives an error reply — so each incoming event
either persists-and-broadcasts or does nothing observable. -/
theorem eventUpdate_broadcast_iff_persist (insertFails : Bool)
    (st : ServerState) (e : EventRecord) :
    ((handleEventUpdate insertFails st e).broadcasts = [e] ↔
       insertFails = false) ∧
    ((handleEventUpdate insertFails st e).state.real_time_events
        = st.real_time_events ++ [e] ↔ insertFails = false) ∧
    (insertFails = true →
       (handleEventUpdate insertFails st e).state = st ∧
       (handleEventUpdate insertFails st e).broadcasts = []) ∧
    (handleEventUpdate insertFails st e).repliesToSender = [] := by
  cases insertFails <;>
    simp [handleEventUpdate]

/-- Witness for C10 at a failing insert: nothing observable happens. -/
theorem eventUpdate_broadcast_iff_persist_witness :
    (handleEventUpdate true ⟨[]⟩ ⟨"u1", "ping", "d"⟩).state = ⟨[]⟩ ∧
    (handleEventUpdate true ⟨[]⟩ ⟨"u1", "ping", "d"⟩).broadcasts = [] :=
  (eventUpdate_broadcast_iff_persist true ⟨[]⟩ ⟨"u1", "ping", "d"⟩).2.2.1
    rfl

/-- Updating the first match commutes with `find?` for an update that does not
change whether the predicate holds. -/
theorem find_updateFirst (p : Job → Bool) (f : Job → Job)
    (hpf : ∀ j, p (f j) = p j) (l : List Job) :
    (updateFirst p f l).find? p = (l.find? p).map f := by
  induction l with
  | nil => rfl
  | cons a rest ih =>
    by_cases hpa : p a
    · rw [updateFirst, if_pos hpa,
        List.find?_cons_of_pos _ (by rw [hpf]; exact hpa),
        List.find?_cons_of_pos _ hpa]
      rfl
    · rw [updateFirst, if_neg hpa, List.find?_cons_of_neg _ hpa,
        List.find?_cons_of_neg _ hpa, ih]

/-- Every element of `updateFirst p f l` satisfies `Q` when all of `l`
does and `f` preserves `Q` on the (unique) element actually updated —
the first one matching `p`, i.e. the one `find?` returns. -/
theorem updateFirst_pred_of_find {Q : Job → Prop} (p : Job → Bool)
    (f : Job → Job) (l : List Job)
    (hl : ∀ j ∈ l, Q j)
    (hf : ∀ j, l.find? p = some j → Q (f j)) :
    ∀ j ∈ updateFirst p f l, Q j := by
  induction l with
  | nil =>
    intro j hj
    simp [updateFirst] at hj
  | cons a rest ih =>
    intro j hj
    by_cases hpa : p a
    · rw [updateFirst, if_pos hpa] at hj
      rcases List.mem_cons.mp hj with h | h
      · subst h
        exact hf a (List.find?_cons_of_pos _ hpa)
      · exact hl j (List.mem_cons_of_mem a h)
    · rw [updateFirst, if_neg hpa] at hj
      rcases List.mem_cons.mp hj with h | h
      · subst h
        exact hl _ (List.mem_cons_self _ _)
      · exact ih (fun x hx => hl x (List.mem_cons_of_mem a hx))
          (fun x hx => hf x (by rw [List.find?_cons_of_neg _ hpa]; exact hx))
          j h

/-- Inversion for a successful `create`: the store grew by exactly the
returned job, which starts queued with progress 0 and no finish
timestamp, and the target was non-empty. -/
theorem create_ok (st : Store) (now : Nat) (t p k c : String)
    (st1 : Store) (job : Job) (h : create st now t p k c = .ok (st1, job)) :
    st1 = st ++ [job] ∧ job.status = .queued ∧ job.finishedAt = none ∧
    job.progress = 0 ∧ job.target = t ∧ t ≠ "" := by
  unfold create at h
  by_cases ht : t = ""
  · rw [if_pos ht] at h
    simp at h
  · rw [if_neg ht] at h
    cases hk : parseScanType k with
    | none =>
      rw [hk] at h
      simp at h
    | some kk =>
      rw [hk] at h
      simp only [Except.ok.injEq, Prod.mk.injEq] at h
      obtain ⟨h1, h2⟩ := h
      subst h1
      subst h2
      exact ⟨rfl, rfl, rfl, rfl, rfl, ht⟩

/-- Updating the first match at an id-preserving update commutes with the `getJob`
point query. -/
theorem getJob_updateFirst (i : Nat) (f : Job → Job)
    (hid : ∀ j, (f j).id = j.id) (l : List Job) :
    getJob (updateFirst (fun x => x.id = i) f l) i = (getJob l i).map f :=
  find_updateFirst _ f (fun j => by simp [hid j]) l

/-- Each successfully applied orchestrator operation preserves the
finished-at/terminal invariant. -/
theorem storeInv_applyOp (st st1 : Store) (op : OrchOp)
    (h : applyOp st op = .ok st1) (hP : StoreInv st) : StoreInv st1 := by
  cases op with
  | opCreate now t p k c =>
    simp only [applyOp] at h
    unfold create at h
    split at h
    · simp [Except.map] at h
    · split at h
      · simp [Except.map] at h
      · simp only [Except.map, Except.ok.injEq] at h
        subst h
        intro j hj
        rcases List.mem_append.mp hj with hm | hm
        · exact hP j hm
        · rw [List.mem_singleton.mp hm]
          rfl
  | opReport now i pr line =>
    simp only [applyOp] at h
    unfold reportProgress at h
    split at h
    · simp at h
    · next j0 hg =>
      split at h
      · simp only [Except.ok.injEq] at h
        subst h
        exact hP
      · next hterm =>
        split at h
        · simp at h
        · simp only [Except.ok.injEq] at h
          subst h
          intro j hj
          refine updateFirst_pred_of_find _ _ st hP ?_ j hj
          intro x hx
          have hx0 : x = j0 := (Option.some.inj (hg.symm.trans hx)).symm
          have hx1 := hP x (List.mem_of_find?_eq_some hx)
          simp only [Bool.not_eq_true] at hterm
          show x.finishedAt.isSome = isTerminal .running
          rw [hx1, hx0, hterm]
          rfl
  | opComplete now i outcome =>
    simp only [applyOp] at h
    unfold complete at h
    split at h
    · simp at h
    · next j0 hg =>
      split at h
      · simp only [Except.ok.injEq] at h
        subst h
        exact hP
      · split at h
        · simp at h
        · simp only [Except.ok.injEq] at h
          subst h
          intro j hj
          refine updateFirst_pred_of_find _ _ st hP ?_ j hj
          intro x hx
          cases outcome <;> rfl
  | opCancel now i =>
    simp only [applyOp] at h
    unfold cancel at h
    split at h
    · simp at h
    · next j0 hg =>
      split at h
      · simp at h
      · simp only [Except.ok.injEq] at h
        subst h
        intro j hj
        refine updateFirst_pred_of_find _ _ st hP ?_ j hj
        intro x hx
        rfl
  | opRetry now i =>
    simp only [applyOp] at h
    unfold retry at h
    split at h
    · simp [Except.map] at h
    · next j0 hg =>
      split at h
      · simp only [Except.map, Except.ok.injEq] at h
        subst h
        intro j hj
        rcases List.mem_append.mp hj with hm | hm
        · exact hP j hm
        · rw [List.mem_singleton.mp hm]
          rfl
      · simp [Except.map] at h

/-- The finished-at/terminal invariant holds after any operation
sequence. -/
theorem storeInv_applyOps (st : Store) (ops : List OrchOp)
    (hP : StoreInv st) : StoreInv (applyOps st ops) := by
  induction ops generalizing st with
  | nil => exact hP
  | cons op rest ih =>
    show StoreInv
      (applyOps (match applyOp st op with
                 | .ok st1 => st1
                 | .error _ => st) rest)
    cases hop : applyOp st op with
    | ok st1 => exact ih st1 (storeInv_applyOp st st1 op hop hP)
    | error e => exact ih st hP

/-- C3: an accepted `reportProgress` call never decreases a job's
progress (so progress is non-decreasing over any sequence of accepted
calls), and in every reachable store `finished_at` is set on a job iff
its status is terminal. -/
theorem reportProgress_monotone_and_finishedAt_iff_terminal :
    (∀ (st : Store) (now jobId pr : Nat) (line : Option String)
       (st1 : Store),
       reportProgress st now jobId pr line = .ok st1 →
       ∀ j j1, getJob st jobId = some j → getJob st1 jobId = some j1 →
         j.progress ≤ j1.progress) ∧
    (∀ st : Store, Reachable st →
       ∀ j ∈ st, j.finishedAt.isSome = isTerminal j.status) := by
  constructor
  · intro st now jobId pr line st1 h j j1 hj hj1
    unfold reportProgress at h
    split at h
    · simp at h
    · next j0 hg =>
      have e0 : j = j0 := Option.some.inj (hj.symm.trans hg)
      split at h
      · simp only [Except.ok.injEq] at h
        subst h
        have e1 : j1 = j0 := Option.some.inj (hj1.symm.trans hg)
        rw [e0, e1]
      · next hterm =>
        split at h
        · simp at h
        · next hrange =>
          simp only [Except.ok.injEq] at h
          subst h
          rw [getJob_updateFirst jobId
              (fun x =>
                { x with
                  status := .running
                  progress := pr
                  updatedAt := now
                  log := x.log ++ (line.getD "") })
              (fun x => rfl) st, hg, Option.map_some'] at hj1
          have e1 : j1 = { j0 with
              status := .running
              progress := pr
              updatedAt := now
              log := j0.log ++ (line.getD "") } :=
            (Option.some.inj hj1).symm
          rw [e0, e1]
          show j0.progress ≤ pr
          exact Nat.le_of_not_lt (not_or.mp hrange).2
  · rintro st ⟨ops, hops⟩
    subst hops
    exact storeInv_applyOps [] ops (by intro j hj; simp at hj)

/-- Witness for C3: a concrete accepted progress report from 0 to 50 on
a store reached by create-then-report, where the invariant also holds. -/
theorem reportProgress_monotone_and_finishedAt_iff_terminal_witness :
    reportProgress stC3a 2 0 50 (some "l1") = .ok stC3b ∧
    getJob stC3a 0 = some jobC3a ∧ getJob stC3b 0 = some jobC3b ∧
    jobC3a.progress ≤ jobC3b.progress ∧
    jobC3b.finishedAt.isSome = isTerminal jobC3b.status := by
  refine ⟨rfl, by decide, by decide, ?_, ?_⟩
  · exact reportProgress_monotone_and_finishedAt_iff_terminal.1
      stC3a 2 0 50 (some "l1") stC3b rfl jobC3a jobC3b (by decide)
      (by decide)
  · exact reportProgress_monotone_and_finishedAt_iff_terminal.2
      stC3b ⟨[.opCreate 1 "host1" "default" "combined" "",
              .opReport 2 0 50 (some "l1")], rfl⟩ jobC3b (by decide)

/-- C6: a successful `retry` only appends the new job — the source job
(and every other job) is left byte-for-byte intact, and the new job
links to the source via `parent_scan_id` while copying its target,
profile, scan kind and config, starting queued. -/
theorem retry_frame_and_child_fields (st : Store) (now jobId : Nat)
    (st1 : Store) (newJob : Job)
    (h : retry st now jobId = .ok (st1, newJob)) :
    st1 = st ++ [newJob] ∧
    (∀ src, getJob st jobId = some src →
       getJob st1 jobId = some src ∧
       newJob.parentScanId = some jobId ∧
       newJob.target = src.target ∧
       newJob.profile = src.profile ∧
       newJob.scanKind = src.scanKind ∧
       newJob.config = src.config ∧
       newJob.status = .queued) := by
  unfold retry at h
  split at h
  · simp at h
  · next j0 hg =>
    split at h
    · simp only [Except.ok.injEq, Prod.mk.injEq] at h
      obtain ⟨h1, h2⟩ := h
      subst h1
      constructor
      · rw [h2]
      · intro src hsrc
        have hsj : src = j0 := Option.some.inj (hsrc.symm.trans hg)
        refine ⟨?_, ?_, ?_, ?_, ?_, ?_, ?_⟩
        · show List.find? (fun x => x.id = jobId) (st ++ _) = some src
          rw [List.find?_append]
          unfold getJob at hsrc
          rw [hsrc]
          rfl
        · rw [← h2]
        · rw [← h2, hsj]
        · rw [← h2, hsj]
        · rw [← h2, hsj]
        · rw [← h2, hsj]
        · rw [← h2]
    · simp at h

/-- Witness for C6 at a concrete failed job that gets retried. -/
theorem retry_frame_and_child_fields_witness :
    getJob (stC6 ++ [jobC6]) 0 = some srcC6 ∧
    jobC6.parentScanId = some 0 ∧
    jobC6.target = srcC6.target ∧
    jobC6.config = srcC6.config := by
  have h := retry_frame_and_child_fields stC6 5 0 (stC6 ++ [jobC6])
    jobC6 rfl
  have h2 := h.2 srcC6 (by decide)
  exact ⟨h2.1, h2.2.1, h2.2.2.1, h2.2.2.2.2.2.1⟩

/-- Membership in the overdue-ordered insertion. -/
theorem mem_insertByOverdue (now : Nat) (p a : Playbook)
    (l : List Playbook) :
    a ∈ insertByOverdue now p l ↔ a = p ∨ a ∈ l := by
  induction l with
  | nil => simp [insertByOverdue]
  | cons q qs ih =>
    unfold insertByOverdue
    by_cases hc : overdueBy now q < overdueBy now p
    · rw [if_pos hc]
      simp
    · rw [if_neg hc]
      simp only [List.mem_cons, ih]
      tauto

/-- Sorting by overdue time does not change membership. -/
theorem mem_sortByOverdue (now : Nat) (a : Playbook)
    (l : List Playbook) :
    a ∈ sortByOverdue now l ↔ a ∈ l := by
  induction l with
  | nil => simp [sortByOverdue]
  | cons q qs ih =>
    rw [show sortByOverdue now (q :: qs)
        = insertByOverdue now q (sortByOverdue now qs) from rfl,
      mem_insertByOverdue]
    simp only [List.mem_cons, ih]

/-- Every playbook id collected by the per-playbook loop belongs to a
chosen playbook whose job creation succeeded — in particular one whose
target is non-empty. -/
theorem runChosen_ok_ids (now : Nat) (chosen : List Playbook)
    (st : Store) :
    ∀ i ∈ (runChosen now chosen st).1,
      ∃ q ∈ chosen, q.id = i ∧ q.target ≠ "" := by
  induction chosen generalizing st with
  | nil =>
    intro i hi
    simp [runChosen] at hi
  | cons p rest ih =>
    intro i hi
    unfold runChosen at hi
    split at hi
    · next st1 job hcr =>
      simp only [List.mem_cons] at hi
      rcases hi with hi | hi
      · exact ⟨p, List.mem_cons_self _ _,
          hi.symm,
          (create_ok st now p.target p.profile "combined" "" st1 job
            hcr).2.2.2.2.2⟩
      · obtain ⟨q, hq, hqi, hqt⟩ := ih st1 i hi
        exact ⟨q, List.mem_cons_of_mem p hq, hqi, hqt⟩
    · obtain ⟨q, hq, hqi, hqt⟩ := ih st i hi
      exact ⟨q, List.mem_cons_of_mem p hq, hqi, hqt⟩

/-- C7: on the concrete scenario of three enabled playbooks overdue by
5, 60 and 120 minutes with `limit = 2`, the tick creates jobs exactly
for the 120- and 60-minute-overdue playbooks in that order and leaves
the 5-minute one's `last_run` at its old value; in general a tick keeps
one output entry per playbook, and a playbook whose job creation fails
(its target is empty, so `create` rejects it) appears in the output with
its `last_run` untouched — `last_run` advances only on creation
success. -/
theorem scheduler_tick_overdue_order_and_lastRun :
    ((runDuePlaybooks 1000 2 [pbA, pbB, pbC] []).playbooks.map
        (fun p => p.lastRun) = [985, 1000, 1000] ∧
     (runDuePlaybooks 1000 2 [pbA, pbB, pbC] []).store.map
        (fun j => j.target) = ["tC", "tB"] ∧
     (runDuePlaybooks 1000 2 [pbA, pbB, pbC] []).created
        = [(3, 0), (2, 1)]) ∧
    (∀ (now limit : Nat) (pbs : List Playbook) (st : Store),
       (runDuePlaybooks now limit pbs st).playbooks.length
         = pbs.length) ∧
    (∀ (now limit : Nat) (pbs : List Playbook) (st : Store)
       (p : Playbook),
       (pbs.map (fun q => q.id)).Nodup → p ∈ pbs → p.target = "" →
       p ∈ (runDuePlaybooks now limit pbs st).playbooks) := by
  refine ⟨⟨by decide, by decide, by decide⟩, ?_, ?_⟩
  · intro now limit pbs st
    unfold runDuePlaybooks
    simp
  · intro now limit pbs st p hnd hp htar
    unfold runDuePlaybooks
    have hnotin : p.id ∉
        (runChosen now
          ((sortByOverdue now (pbs.filter (isDue now))).take limit)
          st).1 := by
      intro hmem
      obtain ⟨q, hq_chosen, hqid, hqt⟩ :=
        runChosen_ok_ids now _ st p.id hmem
      have hq_pbs : q ∈ pbs :=
        List.mem_of_mem_filter
          ((mem_sortByOverdue now q _).mp
            (List.take_subset _ _ hq_chosen))
      have hqp : q = p :=
        List.inj_on_of_nodup_map hnd hq_pbs hp hqid
      rw [hqp] at hqt
      exact hqt htar
    exact List.mem_map.mpr ⟨p, hp, by rw [if_neg hnotin]⟩

/-- Witness for C7: a tick over a single playbook whose target is empty
leaves that playbook in the output unchanged. -/
theorem scheduler_tick_overdue_order_and_lastRun_witness :
    pbBad ∈ (runDuePlaybooks 1000 5 [pbBad] []).playbooks :=
  scheduler_tick_overdue_order_and_lastRun.2.2 1000 5 [pbBad] [] pbBad
    (by decide) (by decide) (by decide)

/-- C8: diffing the job with findings X-high and Y-medium against the
job with findings X-critical and Z-low yields exactly changed = [X with
severities high→critical], removed = [Y], added = [Z]; in general the
diff keys findings by stable identity and partitions them into added
(key only in the new set), removed (key only in the old set) and changed
(key in both with differing severity, recording the old and new
finding), with unchanged findings appearing in none of the three
lists. -/
theorem diffReport_partition :
    createDiffReport stC8 0 1 = .ok
      { added := [fZ], removed := [fY], changed := [(fXold, fXnew)],
        unchangedCount := 0 } ∧
    (∀ (olds news : List Finding) (n : Finding),
       n ∈ (diffFindings olds news).added ↔
         n ∈ news ∧ ∀ o ∈ olds, findingKey o ≠ findingKey n) ∧
    (∀ (olds news : List Finding) (o : Finding),
       o ∈ (diffFindings olds news).removed ↔
         o ∈ olds ∧ ∀ n ∈ news, findingKey n ≠ findingKey o) ∧
    (∀ (olds news : List Finding) (o n : Finding),
       (o, n) ∈ (diffFindings olds news).changed ↔
         o ∈ olds ∧
         news.find? (fun x => findingKey x = findingKey o) = some n ∧
         o.severity ≠ n.severity) := by
  refine ⟨rfl, ?_, ?_, ?_⟩
  · intro olds news n
    unfold diffFindings
    rw [List.mem_filter]
    simp
  · intro olds news o
    unfold diffFindings
    rw [List.mem_filter]
    simp
  · intro olds news o n
    unfold diffFindings
    constructor
    · intro h
      obtain ⟨o1, ho1, hf⟩ := List.mem_filterMap.mp h
      split at hf
      · next n1 hfind =>
        split at hf
        · next hs =>
          simp only [Option.some.injEq, Prod.mk.injEq] at hf
          obtain ⟨rfl, rfl⟩ := hf
          exact ⟨ho1, hfind, hs⟩
        · simp at hf
      · simp at hf
    · rintro ⟨ho, hfind, hs⟩
      refine List.mem_filterMap.mpr ⟨o, ho, ?_⟩
      simp only [hfind]
      rw [if_pos hs]

/-- Witness for C8: membership instances of the partition at the
concrete scenario findings. -/
theorem diffReport_partition_witness :
    fZ ∈ (diffFindings [fXold, fY] [fXnew, fZ]).added ∧
    fY ∈ (diffFindings [fXold, fY] [fXnew, fZ]).removed ∧
    (fXold, fXnew) ∈ (diffFindings [fXold, fY] [fXnew, fZ]).changed := by
  refine ⟨?_, ?_, ?_⟩
  · exact (diffReport_partition.2.1 [fXold, fY] [fXnew, fZ] fZ).mpr
      ⟨by decide, by decide⟩
  · exact (diffReport_partition.2.2.1 [fXold, fY] [fXnew, fZ] fY).mpr
      ⟨by decide, by decide⟩
  · exact (diffReport_partition.2.2.2 [fXold, fY] [fXnew, fZ]
      fXold fXnew).mpr ⟨by decide, by decide, by decide⟩

end NetSec
